import Mathlib

/-!
Shallow embedding of the EWA HTML KPI extraction pipeline
(`src/ewa_html_processor.py`, with the divergent attribute-text detector of
`src/ewa_html_processor_v1.py` embedded separately), together with theorems
settling the frozen claims about it.

Strings are modelled as Lean `String`; Python `str.lower` / `in` / `re`
operations are translated to explicit functions below.  Dates are modelled
as the 8-digit `YYYYMMDD` number parsed from the filename.  The `strptime`
range validation — an 8-digit token that is not a valid calendar date
raises `ValueError` in the source, uncaught, aborting the whole run — is
modelled by `extract_date_from_filename_checked`, and
`build_detail_and_summary_exn` propagates that exception through the
per-file loop as the source does.
-/

namespace Ewa

/-- Python `\s` on ASCII text: the whitespace characters `str.strip` and
`re.sub(r"\s+", " ", ·)` treat as spaces. -/
def pyIsSpace (c : Char) : Bool :=
  c = ' ' || c = '\t' || c = '\n' || c = '\r' || c = '\x0b' || c = '\x0c'

/-- Python `str.lower()` (ASCII range, which is all the source's keywords use). -/
def pyLower (s : String) : String := ⟨s.toList.map Char.toLower⟩

/-- Collapse each run of consecutive spaces to a single space. -/
def collapseSpaces : List Char → List Char
  | [] => []
  | [c] => [c]
  | a :: b :: rest =>
    if a = ' ' && b = ' ' then collapseSpaces (b :: rest)
    else a :: collapseSpaces (b :: rest)

/-- Drop leading and trailing spaces. -/
def trimSpaces (l : List Char) : List Char :=
  ((l.dropWhile (· = ' ')).reverse.dropWhile (· = ' ')).reverse

/-- `_norm` of the source: `re.sub(r"\s+", " ", s or "").strip()`. -/
def pyNorm (s : String) : String :=
  ⟨trimSpaces (collapseSpaces (s.toList.map (fun c => if pyIsSpace c then ' ' else c)))⟩

/-- Auxiliary scan for substring containment over character lists. -/
def containsAux (pat : List Char) : List Char → Bool
  | [] => pat.isEmpty
  | c :: cs => pat.isPrefixOf (c :: cs) || containsAux pat cs

/-- Python `needle in haystack` (substring containment). -/
def strContains (needle haystack : String) : Bool :=
  containsAux needle.toList haystack.toList

/-- `" ".join(classes)`. -/
def joinSpace : List String → String
  | [] => ""
  | [s] => s
  | s :: rest => s ++ " " ++ joinSpace rest

/-- The fixed list of 13 canonical KPI names (`PRIMARY_KPI_ORDER`). -/
def PRIMARY_KPI_ORDER : List String := [
  "Service summary",
  "Service Data Quality and Service Readiness",
  "Software Configuration for A1C",
  "Hardware Capacity",
  "Performance Overview A1C",
  "SAP System Operating A1C",
  "Security",
  "Software Change and Transport Management of A1C",
  "Financial Data Quality",
  "Upgrade Planning",
  "SAP HANA Database A1H",
  "SAP Netwear gateway",
  "UI Technologies checks"]

/-- `PRIMARY_KPI_KEYWORDS` as an association list in the dict's insertion
order (Python dicts iterate in insertion order). -/
def PRIMARY_KPI_KEYWORDS : List (String × List String) := [
  ("Service summary", ["service summary", "service summey", "service overview"]),
  ("Service Data Quality and Service Readiness",
    ["data quality", "service readiness", "data integrity"]),
  ("Software Configuration for A1C",
    ["software configuration", "configuration for a1c", "parameters"]),
  ("Hardware Capacity", ["hardware capacity", "cpu capacity", "disk capacity", "hardware"]),
  ("Performance Overview A1C",
    ["performance overview", "dialog response", "throughput", "performance"]),
  ("SAP System Operating A1C", ["system operating", "system operation", "system operating a1c"]),
  ("Security", ["security", "authorization", "password", "critical authorizations"]),
  ("Software Change and Transport Management of A1C",
    ["transport management", "software change", "transports", "stms"]),
  ("Financial Data Quality", ["financial data quality", "financial"]),
  ("Upgrade Planning", ["upgrade planning", "maintenance strategy", "upgrade"]),
  ("SAP HANA Database A1H", ["sap hana database", "hana", "hana database", "index server"]),
  ("SAP Netwear gateway",
    ["sap netwear gateway", "sap netweaver gateway", "netweaver", "gateway"]),
  ("UI Technologies checks", ["ui technologies", "fiori", "web dynpro", "ui technologies checks"])]

/-- `SEV_ORDER` dict: severity rank of a status name (`none` = dict miss,
which pandas turns into NaN; unreachable for statuses the detectors emit). -/
def SEV_ORDER (s : String) : Option Nat :=
  if s = "GREEN" then some 1 else if s = "YELLOW" then some 2
  else if s = "RED" then some 3 else none

/-- `REV_SEV.get(s, "GREEN")`: severity rank back to a status name,
defaulting to GREEN. -/
def REV_SEV (n : Nat) : String :=
  if n = 1 then "GREEN" else if n = 2 then "YELLOW" else if n = 3 then "RED" else "GREEN"

/-- `SYM` dict: display glyph per status name (only ever applied to the
three status names). -/
def SYM (s : String) : String :=
  if s = "GREEN" then "🟢" else if s = "YELLOW" then "🟡"
  else if s = "RED" then "🔴" else ""

/-- An icon element: the attributes `detect_status_from_img` and the
heading-level scan read (`alt`, `title`, `src`, `style`, `class`);
an absent attribute is the empty string / empty list, matching
`img.get(...) or ""`. -/
structure Img where
  alt : String
  title : String
  src : String
  style : String
  classes : List String
deriving DecidableEq, Repr

/-- `detect_status_from_img(img)`: first-match keyword scan over the
lowercased concatenation of alt, title and src. -/
def detect_status_from_img : Option Img → Option (String × String)
  | none => none
  | some img =>
    let text := pyLower img.alt ++ " " ++ pyLower img.title ++ " " ++ pyLower img.src
    if strContains "red" text || strContains "critical" text then some ("RED", SYM "RED")
    else if strContains "yellow" text || strContains "warning" text then
      some ("YELLOW", SYM "YELLOW")
    else if strContains "green" text || strContains "ok" text || strContains "good" text then
      some ("GREEN", SYM "GREEN")
    else none

/-- A character the regex class `[\d\s,]` accepts. -/
def isRgbChar (c : Char) : Bool := c.isDigit || pyIsSpace c || c = ','

/-- `re.search(r"rgb\(([\d\s,]+)\)", s)`: the captured group of the
leftmost match, if any. -/
def findRgbGroup : List Char → Option (List Char)
  | [] => none
  | c :: cs =>
    if ("rgb(".toList).isPrefixOf (c :: cs) then
      let rest := (c :: cs).drop 4
      let run := rest.takeWhile isRgbChar
      if run ≠ [] && (rest.drop run.length).head? = some ')' then some run
      else findRgbGroup cs
    else findRgbGroup cs

/-- `detect_status_from_style(style, classes)`: rgb() triple, then
`background-color` keyword scan, then CSS class-name scan
(the class branch checks GREEN, then YELLOW, then RED). -/
def detect_status_from_style (style : Option String) (classes : List String) :
    Option (String × String) :=
  if style.getD "" = "" && classes = [] then none
  else
    let s := pyLower (style.getD "")
    let rgbRes : Option (String × String) :=
      match findRgbGroup s.toList with
      | none => none
      | some run =>
        let rgb : String := ⟨run.filter (· ≠ ' ')⟩
        if strContains "255,0,0" rgb || strContains "255,103,88" rgb then
          some ("RED", SYM "RED")
        else if strContains "255,255,0" rgb || strContains "255,248,67" rgb then
          some ("YELLOW", SYM "YELLOW")
        else if strContains "0,128,0" rgb || strContains "148,216,143" rgb
            || strContains "0,176,80" rgb then some ("GREEN", SYM "GREEN")
        else none
    match rgbRes with
    | some r => some r
    | none =>
      let bgRes : Option (String × String) :=
        if strContains "background-color" s then
          if strContains "red" s then some ("RED", SYM "RED")
          else if strContains "yellow" s || strContains "gold" s then
            some ("YELLOW", SYM "YELLOW")
          else if strContains "green" s then some ("GREEN", SYM "GREEN")
          else none
        else none
      match bgRes with
      | some r => some r
      | none =>
        let cls_txt := pyLower (joinSpace classes)
        if strContains "sa-table-cell-custom1" cls_txt || strContains "green" cls_txt then
          some ("GREEN", SYM "GREEN")
        else if strContains "sa-table-cell-custom3" cls_txt || strContains "yellow" cls_txt then
          some ("YELLOW", SYM "YELLOW")
        else if strContains "sa-table-cell-custom2" cls_txt || strContains "red" cls_txt then
          some ("RED", SYM "RED")
        else none

/-- `detect_status_from_img` of `ewa_html_processor_v1.py`: alt and src only
(no title), wider keyword lists, and filename-pattern fallbacks. -/
def detect_status_from_img_v1 : Option Img → Option (String × String)
  | none => none
  | some img =>
    let text := pyLower img.alt ++ " " ++ pyLower img.src
    if ["red", "critical", "high", "severe"].any (fun k => strContains k text) then
      some ("RED", SYM "RED")
    else if ["yellow", "warn", "warning", "medium"].any (fun k => strContains k text) then
      some ("YELLOW", SYM "YELLOW")
    else if ["green", "ok", "good", "healthy", "normal", "low", "success"].any
        (fun k => strContains k text) then some ("GREEN", SYM "GREEN")
    else
      let src := pyLower img.src
      if ["green.png", ".green.", "_green", "green.gif", "traffic_light_green"].any
          (fun k => strContains k src) then some ("GREEN", SYM "GREEN")
      else if ["yellow.png", "_yellow", "yellow.gif"].any (fun k => strContains k src) then
        some ("YELLOW", SYM "YELLOW")
      else if ["red.png", "_red", "red.gif"].any (fun k => strContains k src) then
        some ("RED", SYM "RED")
      else none

/-- The regex scan of `_extract_date_from_filename`: leftmost run of 8
consecutive digits, `re.search(r"(\d{8})", fname)`. -/
def digitRun8 : List Char → Option (List Char)
  | [] => none
  | c :: cs =>
    if ((c :: cs).take 8).length = 8 && ((c :: cs).take 8).all Char.isDigit then
      some ((c :: cs).take 8)
    else digitRun8 cs

/-- Digits to the number they denote. -/
def digitsToNat (l : List Char) : Nat :=
  l.foldl (fun n c => n * 10 + (c.toNat - '0'.toNat)) 0

/-- `_extract_date_from_filename`, success paths only: the first 8-digit
token of the filename as a `YYYYMMDD` number, `none` when the filename
holds no such token.  (`strptime`'s rejection of an invalid token — an
uncaught `ValueError` — is modelled by
`extract_date_from_filename_checked` below.) -/
def extract_date_from_filename (fname : String) : Option Nat :=
  (digitRun8 fname.toList).map digitsToNat

/-- Gregorian leap year, as `datetime` uses it. -/
def isLeapYear (y : Nat) : Bool :=
  (y % 4 = 0 && y % 100 ≠ 0) || y % 400 = 0

/-- Days in a month, as `datetime` uses it. -/
def daysInMonth (y m : Nat) : Nat :=
  if m = 2 then (if isLeapYear y then 29 else 28)
  else if m = 4 || m = 6 || m = 9 || m = 11 then 30 else 31

/-- The dates `datetime.strptime(tok, "%Y%m%d")` accepts: year at least 1
(`datetime.MINYEAR`), month 1–12, day within the month. -/
def validYMD (y m d : Nat) : Bool :=
  1 ≤ y && 1 ≤ m && m ≤ 12 && 1 ≤ d && d ≤ daysInMonth y m

/-- `_extract_date_from_filename` with the `strptime` error path surfaced:
`.ok none` when the filename holds no 8-digit token (`re.search` misses),
`.ok (some n)` when the first token is a valid `YYYYMMDD` date, and
`.error` when it is not — `strptime` raises `ValueError` there, which the
source never catches.  (The source's exception text differs between
`strptime`'s two failure modes — pattern mismatch vs. day out of range —
and is collapsed to one modelled message; the abort, not the text, is the
modelled behaviour.) -/
def extract_date_from_filename_checked (fname : String) : Except String (Option Nat) :=
  match digitRun8 fname.toList with
  | none => .ok none
  | some tok =>
    let y := digitsToNat (tok.take 4)
    let m := digitsToNat ((tok.drop 4).take 2)
    let d := digitsToNat (tok.drop 6)
    if validYMD y m d then .ok (some (digitsToNat tok))
    else .error ("ValueError: time data " ++ (⟨tok⟩ : String) ++
      " does not match format %Y%m%d")

/-- Inner loops of `map_to_primary`: first KPI in dict order one of whose
keyword phrases occurs in `combo`. -/
def lookupKpi (combo : String) : List (String × List String) → Option String
  | [] => none
  | (kpi, kws) :: rest =>
    if kws.any (fun kw => strContains kw combo) then some kpi
    else lookupKpi combo rest

/-- `map_to_primary(section, text)`. -/
def map_to_primary (sectionText text : String) : Option String :=
  lookupKpi (pyLower (sectionText ++ " " ++ text)) PRIMARY_KPI_KEYWORDS

/-- The label-candidate filter of `parse_single_html`'s table scan:
`t and len(t) > 2 and not re.fullmatch(r"\d+", t)`. -/
def isCandidate (t : String) : Bool :=
  t ≠ "" && t.length > 2 && !(t ≠ "" && t.toList.all Char.isDigit)

/-- Python `max(candidates, key=len)`: the first candidate of maximal
length (only ever applied to a nonempty list). -/
def pickLongest : List String → String
  | [] => ""
  | t :: ts => ts.foldl (fun best x => if x.length > best.length then x else best) t

/-- The label fallback chain of `parse_single_html` lines 191–206: normalize
each cell text, take the longest candidate, else the first non-empty text,
else the sentinel `"(no label)"`. -/
def rowLabel (cellTexts : List String) : String :=
  let texts := cellTexts.map pyNorm
  let candidates := texts.filter isCandidate
  let label :=
    if candidates ≠ [] then pickLongest candidates
    else ((texts.find? (fun t => t ≠ "")).getD "")
  if label = "" then "(no label)" else label

/-! ## Document model and `parse_single_html`

The BeautifulSoup DOM navigation is shallowly embedded: the `Doc` structure
stores, per markup element the source consults, the result that navigation
call would return (nearest image of a heading, first image of a table row,
the cells of a row, the KPI-name text hits of the whole document). -/

/-- A table cell (`td`/`th`): its text (`get_text(" ", strip=True)`), its
`style` attribute (`get("style", "")`) and its `class` list (`get("class", [])`). -/
structure Cell where
  text : String
  style : String
  classes : List String
deriving DecidableEq, Repr

/-- A table row (`tr`): its cells in order, and `tr.find("img")` — the first
image anywhere inside the row, if any. -/
structure Row where
  img : Option Img
  cells : List Cell
deriving DecidableEq, Repr

/-- A heading element (`h1`–`h3`), with the image
`heading.find("img") or heading.find_next("img")` resolves to. -/
structure Heading where
  text : String
  nearImg : Option Img
deriving DecidableEq, Repr

/-- A text hit for the top-up pass (C): the result of
`soup.find(text=re.compile(re.escape(prim), re.IGNORECASE))` for a KPI name
`prim` that does occur in the document text, with the image
`parent.find_next("img") or parent.find_previous("img")` and the ancestor
cell `parent.find_parent("td")` that navigation resolves to. -/
structure TextHit where
  kpi : String
  nearImg : Option Img
  parentTd : Option Cell
deriving DecidableEq, Repr

/-- One parsed HTML file: its filename, its `h1`–`h3` headings in document
order, its tables (each with the section text `find_nearest_heading` returns
for it, and its rows), and the KPI-name text hits of pass (C). -/
structure Doc where
  name : String
  headings : List Heading
  tables : List (String × List Row)
  textHits : List TextHit
deriving DecidableEq, Repr

/-- A raw detail record, one per detected status marker (the dicts appended
to `rows` in `parse_single_html`). -/
structure DetailRecord where
  system : String
  report_date : Option Nat
  sectionText : String
  kpi_text : String
  status_name : String
  status_symbol : String
  source_file : String
deriving DecidableEq, Repr

/-- Pass (A) of `parse_single_html`: heading-level icons.  For each heading
whose text contains a canonical KPI name (first such KPI in
`PRIMARY_KPI_ORDER`, then `break`), detect a status from the nearby image
or its style/classes. -/
def parseHeadings (dt : Option Nat) (fname : String) (headings : List Heading) :
    List DetailRecord :=
  headings.flatMap (fun h =>
    let htxt := pyNorm h.text
    if htxt = "" then []
    else
      match PRIMARY_KPI_ORDER.find? (fun prim => strContains (pyLower prim) (pyLower htxt)) with
      | none => []
      | some prim =>
        let detected :=
          match detect_status_from_img h.nearImg with
          | some d => some d
          | none =>
            detect_status_from_style (h.nearImg.map (·.style))
              ((h.nearImg.map (·.classes)).getD [])
        match detected with
        | none => []
        | some (sn, sym) =>
          [{ system := "A1C", report_date := dt, sectionText := prim, kpi_text := prim,
             status_name := sn, status_symbol := sym, source_file := fname }])

/-- Pass (B) of `parse_single_html`: table scanning.  Per row: image status
first, else the first cell whose style/classes yield a status; rows with no
detected status are skipped; the label comes from `rowLabel`. -/
def parseTables (dt : Option Nat) (fname : String) (tables : List (String × List Row)) :
    List DetailRecord :=
  tables.flatMap (fun tbl =>
    tbl.2.flatMap (fun tr =>
      if tr.cells = [] then []
      else
        let detected :=
          match tr.img with
          | some i => detect_status_from_img (some i)
          | none => none
        let detected :=
          match detected with
          | some d => some d
          | none =>
            tr.cells.findSome? (fun (td : Cell) =>
              detect_status_from_style (some td.style) td.classes)
        match detected with
        | none => []
        | some (sn, sym) =>
          [{ system := "A1C", report_date := dt, sectionText := tbl.1,
             kpi_text := rowLabel (tr.cells.map (fun (td : Cell) => td.text)),
             status_name := sn, status_symbol := sym, source_file := fname }]))

/-- Pass (C) of `parse_single_html`: top-up text search for canonical KPIs
not yet present among the emitted sections. -/
def parseTopUp (dt : Option Nat) (fname : String) (hits : List TextHit)
    (present : List String) : List DetailRecord :=
  PRIMARY_KPI_ORDER.filterMap (fun prim =>
    if prim ∈ present then none
    else
      match hits.find? (fun h => h.kpi = prim) with
      | none => none
      | some hit =>
        let detected :=
          match hit.nearImg with
          | some i => detect_status_from_img (some i)
          | none => none
        let detected :=
          match detected with
          | some d => some d
          | none =>
            hit.parentTd.bind (fun td => detect_status_from_style (some td.style) td.classes)
        detected.map (fun d =>
          { system := "A1C", report_date := dt, sectionText := prim, kpi_text := prim,
            status_name := d.1, status_symbol := d.2, source_file := fname }))

/-- `parse_single_html`: passes (A), (B), then the top-up pass (C) over the
KPIs whose names are not among the sections emitted so far. -/
def parse_single_html (doc : Doc) : List DetailRecord :=
  let dt := extract_date_from_filename doc.name
  let ab := parseHeadings dt doc.name doc.headings ++ parseTables dt doc.name doc.tables
  ab ++ parseTopUp dt doc.name doc.textHits (ab.map (·.sectionText))

/-! ## Summary pipeline (`build_detail_and_summary`)

The pandas stages are embedded over lists of records.  `groupby` drops rows
whose `report_date` is null (pandas `dropna=True`), sorts group keys, and
takes per group the max severity and the `source_file` of a record attaining
it; group-key order is not semantically meaningful here (the padded output
re-orders by the product index) and group rows are produced in first-
occurrence key order below. -/

/-- A row of `df_mapped`/`grouped` before re-keying: a detail record plus its
canonical KPI (the `section`/`kpi_text` columns are unused past this point
and not carried). -/
structure Mapped where
  system : String
  report_date : Option Nat
  primary_kpi : String
  status_name : String
  status_symbol : String
  source_file : String
deriving DecidableEq, Repr

/-- One row of the summary table. -/
structure SummaryRecord where
  system : String
  report_date : Nat
  primary_kpi : String
  status_name : String
  status_symbol : String
  source_file : String
deriving DecidableEq, Repr

/-- `df_detail["primary_kpi"] = apply(map_to_primary)` followed by the
`notna()` filter: keep only rows that classify to a canonical KPI. -/
def mapRows (detail : List DetailRecord) : List Mapped :=
  detail.filterMap (fun r =>
    (map_to_primary r.sectionText r.kpi_text).map (fun k =>
      { system := r.system, report_date := r.report_date, primary_kpi := k,
        status_name := r.status_name, status_symbol := r.status_symbol,
        source_file := r.source_file }))

/-- The group keys of `groupby(["system","report_date","primary_kpi"])`:
rows with a null date are dropped (pandas default `dropna=True`). -/
def groupKeys (rs : List Mapped) : List (String × Nat × String) :=
  (rs.filterMap (fun r => r.report_date.map (fun d => (r.system, d, r.primary_kpi)))).dedup

/-- The rows of one group. -/
def groupOf (key : String × Nat × String) (rs : List Mapped) : List Mapped :=
  rs.filter (fun r =>
    r.system = key.1 && r.report_date = some key.2.1 && r.primary_kpi = key.2.2)

/-- Max severity of a group: `agg({"severity": "max"})` over
`status_name.map(SEV_ORDER)`, NaN entries skipped; `REV_SEV` maps the
all-NaN case (fold over the empty list, 0) to GREEN exactly as
`REV_SEV.get(s, "GREEN")` does. -/
def groupSeverity (g : List Mapped) : Nat :=
  (g.filterMap (fun r => SEV_ORDER r.status_name)).foldl max 0

/-- One summary row per group: max severity mapped back through `REV_SEV`
and `SYM`, `source_file` of the first record attaining the max (the
`sort_values("severity", ascending=False)` + `"first"` aggregation;
the tie-break among equal severities is not semantically meaningful). -/
def reduceGroup (key : String × Nat × String) (rs : List Mapped) : SummaryRecord :=
  let g := groupOf key rs
  let sev := groupSeverity g
  { system := key.1, report_date := key.2.1, primary_kpi := key.2.2,
    status_name := REV_SEV sev, status_symbol := SYM (REV_SEV sev),
    source_file :=
      match g.find? (fun r => SEV_ORDER r.status_name = some sev) with
      | some r => r.source_file
      | none => ((g.head?.map (·.source_file)).getD "") }

/-- The pre-padding summary (`grouped` re-keyed to the output columns). -/
def summaryPrePad (rs : List Mapped) : List SummaryRecord :=
  (groupKeys rs).map (fun k => reduceGroup k rs)

/-- Insertion of one number into a sorted list. -/
def insertSorted (n : Nat) : List Nat → List Nat
  | [] => [n]
  | m :: ms => if n ≤ m then n :: m :: ms else m :: insertSorted n ms

/-- `sorted(...)`. -/
def sortNats (l : List Nat) : List Nat := l.foldr insertSorted []

/-- `sorted(summary["report_date"].unique())`. -/
def allDates (summary : List SummaryRecord) : List Nat :=
  sortNats ((summary.map (·.report_date)).dedup)

/-- The default row `fillna` synthesizes for a missing (system, date, KPI). -/
def padDefault (sys : String) (d : Nat) (k : String) : SummaryRecord :=
  { system := sys, report_date := d, primary_kpi := k,
    status_name := "GREEN", status_symbol := SYM "GREEN", source_file := "No alert" }

/-- One cell of the `reindex`ed table: the unique summary row with the given
(system, date, KPI) key when one exists (group keys are unique after
`groupby`; on duplicate keys pandas `reindex` would raise instead), else the
`fillna` default row. -/
def padCell (summary : List SummaryRecord) (sys : String) (d : Nat) (k : String) :
    SummaryRecord :=
  match summary.find? (fun r =>
      r.system = sys && r.report_date = d && r.primary_kpi = k) with
  | some r => r
  | none => padDefault sys d k

/-- The padding step: `reindex` over
`MultiIndex.from_product([["A1C"], all_dates, PRIMARY_KPI_ORDER])` followed
by the three `fillna` calls. -/
def pad (summary : List SummaryRecord) : List SummaryRecord :=
  (["A1C"] : List String).flatMap (fun sys =>
    (allDates summary).flatMap (fun d =>
      PRIMARY_KPI_ORDER.map (fun k => padCell summary sys d k)))

/-- `build_detail_and_summary` over an already-listed input directory (the
source sorts the directory's filenames first; the list is taken in that
order).  Returns the detail rows and the padded summary, or the raised
error message.  The source also writes both tables to CSV and adds a
`primary_kpi` column to the returned detail frame; only the record contents
are modelled. -/
def build_detail_and_summary (docs : List Doc) :
    Except String (List DetailRecord × List SummaryRecord) :=
  if docs.isEmpty then .error "No HTML files found"
  else
    let all_rows := docs.flatMap parse_single_html
    if all_rows.isEmpty then .error "No KPI entries extracted — check HTML format."
    else
      let mapped := mapRows all_rows
      if mapped.isEmpty then .error "No rows mapped to primary KPI — check keyword mapping."
      else .ok (all_rows, pad (summaryPrePad mapped))

/-- Decidable equality of `Except` results (core does not derive it). -/
instance {ε α : Type} [DecidableEq ε] [DecidableEq α] : DecidableEq (Except ε α)
  | .error e, .error f =>
    if h : e = f then .isTrue (congrArg Except.error h)
    else .isFalse (fun hh => h (Except.error.inj hh))
  | .error _, .ok _ => .isFalse (fun hh => Except.noConfusion hh)
  | .ok _, .error _ => .isFalse (fun hh => Except.noConfusion hh)
  | .ok x, .ok y =>
    if h : x = y then .isTrue (congrArg Except.ok h)
    else .isFalse (fun hh => h (Except.ok.inj hh))

/-- The per-file loop of `build_detail_and_summary`
(`for p in files: all_rows.extend(parse_single_html(p))`) with the
`strptime` exception path surfaced: files are parsed in order, and a
`ValueError` from `_extract_date_from_filename` (raised at the top of
`parse_single_html`) aborts the loop — and with it the run — before the
remaining files are parsed. -/
def parseAll : List Doc → Except String (List DetailRecord)
  | [] => .ok []
  | doc :: rest =>
    match extract_date_from_filename_checked doc.name with
    | .error e => .error e
    | .ok _ =>
      match parseAll rest with
      | .error e => .error e
      | .ok rows => .ok (parse_single_html doc ++ rows)

/-- `build_detail_and_summary` with the uncaught `strptime` exception
propagated: identical to `build_detail_and_summary` except that the
per-file loop runs through `parseAll`, so a filename whose 8-digit token is
not a valid date aborts the run. -/
def build_detail_and_summary_exn (docs : List Doc) :
    Except String (List DetailRecord × List SummaryRecord) :=
  if docs.isEmpty then .error "No HTML files found"
  else
    match parseAll docs with
    | .error e => .error e
    | .ok all_rows =>
      if all_rows.isEmpty then .error "No KPI entries extracted — check HTML format."
      else
        let mapped := mapRows all_rows
        if mapped.isEmpty then .error "No rows mapped to primary KPI — check keyword mapping."
        else .ok (all_rows, pad (summaryPrePad mapped))

/-! ## Concrete example inputs -/

/-- A well-formed input file: dated filename, one table under the
"Security" heading with a red-rated row. -/
def goodDoc : Doc :=
  { name := "EWA_A1C_20251118.html", headings := [],
    tables := [("Security", [{ img := some ⟨"red rating", "", "", "", []⟩,
                               cells := [⟨"Critical authorizations found", "", []⟩] }])],
    textHits := [] }

/-- A file whose name holds no 8-digit date token but whose body holds a
detectable status row (a red background-colored cell). -/
def badDoc : Doc :=
  { name := "report.html", headings := [],
    tables := [("", [{ img := none,
                       cells := [⟨"Some broken widget", "background-color: red", []⟩] }])],
    textHits := [] }

/-- A file with no status markers at all. -/
def emptyDoc : Doc :=
  { name := "EWA_A1C_20251125.html", headings := [], tables := [], textHits := [] }

/-- A well-formed file body whose filename's 8-digit token, 20251399, is no
valid calendar date (month 13): `strptime` raises `ValueError` on it. -/
def invalidDoc : Doc :=
  { name := "EWA_A1C_20251399.html", headings := [],
    tables := [("Security", [{ img := some ⟨"red rating", "", "", "", []⟩,
                               cells := [⟨"Critical authorizations found", "", []⟩] }])],
    textHits := [] }

/-! ## Helper lemmas -/

/-- With no style, a non-empty class list reaches the CSS-class branch of
`detect_status_from_style` directly (the rgb and background-color branches
scan the empty style string). -/
theorem detect_style_none_cons (c : String) (cs : List String) :
    detect_status_from_style none (c :: cs) =
      (if strContains "sa-table-cell-custom1" (pyLower (joinSpace (c :: cs))) ||
          strContains "green" (pyLower (joinSpace (c :: cs))) then
        some ("GREEN", SYM "GREEN")
      else if strContains "sa-table-cell-custom3" (pyLower (joinSpace (c :: cs))) ||
          strContains "yellow" (pyLower (joinSpace (c :: cs))) then
        some ("YELLOW", SYM "YELLOW")
      else if strContains "sa-table-cell-custom2" (pyLower (joinSpace (c :: cs))) ||
          strContains "red" (pyLower (joinSpace (c :: cs))) then
        some ("RED", SYM "RED")
      else none) := rfl

/-- A "red" hit in the concatenated attribute text makes the main
attribute-text detector return RED (its first check). -/
theorem detect_img_red_of_contains (img : Img)
    (h : strContains "red"
        (pyLower img.alt ++ " " ++ pyLower img.title ++ " " ++ pyLower img.src) = true) :
    detect_status_from_img (some img) = some ("RED", "🔴") := by
  simp only [detect_status_from_img]
  rw [if_pos]
  · rfl
  · simp [h]

/-- With no style, a class list containing "green" detects GREEN — the CSS
class branch checks GREEN first. -/
theorem detect_style_green_class (classes : List String)
    (h : strContains "green" (pyLower (joinSpace classes)) = true) :
    detect_status_from_style none classes = some ("GREEN", "🟢") := by
  match classes with
  | [] => simp [joinSpace, pyLower, strContains, containsAux, List.isPrefixOf] at h
  | c :: cs =>
    rw [detect_style_none_cons, if_pos]
    · rfl
    · simp [h]

/-- `lookupKpi` characterized: a hit is the first entry in dict order whose
keyword list matches the combo text. -/
theorem lookupKpi_some_spec (combo : String) :
    ∀ (l : List (String × List String)) (k : String), lookupKpi combo l = some k →
      ∃ pre kws suf, l = pre ++ (k, kws) :: suf ∧
        kws.any (fun kw => strContains kw combo) = true ∧
        ∀ p ∈ pre, p.2.any (fun kw => strContains kw combo) = false := by
  intro l
  induction l with
  | nil => intro k h; simp [lookupKpi] at h
  | cons hd tl ih =>
    obtain ⟨k0, kws0⟩ := hd
    intro k h
    rw [lookupKpi] at h
    by_cases hm : kws0.any (fun kw => strContains kw combo) = true
    · rw [if_pos hm] at h
      obtain rfl : k0 = k := Option.some_inj.mp h
      exact ⟨[], kws0, tl, rfl, hm, by simp⟩
    · rw [if_neg hm] at h
      obtain ⟨pre, kws, suf, heq, hmatch, hpre⟩ := ih k h
      refine ⟨(k0, kws0) :: pre, kws, suf, by rw [heq]; rfl, hmatch, ?_⟩
      intro p hp
      rcases List.mem_cons.mp hp with rfl | hp'
      · exact Bool.eq_false_iff.mpr hm
      · exact hpre p hp'

/-- `lookupKpi` misses exactly when no entry's keyword list matches. -/
theorem lookupKpi_none_spec (combo : String) :
    ∀ l : List (String × List String), lookupKpi combo l = none ↔
      ∀ p ∈ l, p.2.any (fun kw => strContains kw combo) = false := by
  intro l
  induction l with
  | nil => simp [lookupKpi]
  | cons hd tl ih =>
    obtain ⟨k0, kws0⟩ := hd
    rw [lookupKpi]
    by_cases hm : kws0.any (fun kw => strContains kw combo) = true
    · rw [if_pos hm]
      constructor
      · intro h; exact absurd h (by simp)
      · intro h
        exact absurd (h (k0, kws0) (List.mem_cons_self _ _)) (by simp [hm])
    · rw [if_neg hm]
      constructor
      · intro h p hp
        rcases List.mem_cons.mp hp with rfl | hp'
        · exact Bool.eq_false_iff.mpr hm
        · exact (ih.mp h) p hp'
      · intro h
        exact ih.mpr (fun p hp => h p (List.mem_cons_of_mem _ hp))

/-! ## Claim theorems -/

/-- C4, counterexample: an element with no style whose class list contains
both a red and a green color word is detected as GREEN, not RED — the CSS
class-name branch of `detect_status_from_style` checks GREEN first, so the
claimed worst-first precedence fails for the class detector. -/
theorem style_class_red_green_detects_GREEN_cex :
    detect_status_from_style none ["red", "green"] = some ("GREEN", "🟢") ∧
    detect_status_from_style none ["red", "green"] ≠ some ("RED", "🔴") := by
  decide

/-- C4, amended: the attribute-text detector (`detect_status_from_img`)
does resolve multiple color keywords worst-first — any "red" hit wins, in
particular alt text holding both "red" and "green" detects RED — but the
CSS-class-name branch of `detect_status_from_style` checks GREEN before
YELLOW before RED, so a class list holding several color words resolves to
the BEST color present: a "green" class word wins even next to "red". -/
theorem detector_precedence_mixed :
    (∀ img : Img,
      strContains "red"
          (pyLower img.alt ++ " " ++ pyLower img.title ++ " " ++ pyLower img.src) = true →
      detect_status_from_img (some img) = some ("RED", "🔴")) ∧
    detect_status_from_img (some ⟨"this is red and green", "", "", "", []⟩) =
      some ("RED", "🔴") ∧
    (∀ classes : List String,
      strContains "green" (pyLower (joinSpace classes)) = true →
      detect_status_from_style none classes = some ("GREEN", "🟢")) ∧
    detect_status_from_style none ["red", "green"] = some ("GREEN", "🟢") :=
  ⟨detect_img_red_of_contains, by decide, detect_style_green_class, by decide⟩

/-- C4 witness: the amended theorem applied at a concrete class list. -/
theorem detector_precedence_mixed_witness :
    detect_status_from_style none ["green-icon"] = some ("GREEN", "🟢") :=
  detector_precedence_mixed.2.2.1 ["green-icon"] (by decide)

/-- C8, counterexample: in `ewa_html_processor.py` the attribute-text
detector checks only "red" and "critical" for RED, so an element whose alt
text is "severe" or "high" is undetected, not RED as claimed. -/
theorem img_severe_high_undetected_cex :
    detect_status_from_img (some ⟨"severe", "", "", "", []⟩) = none ∧
    detect_status_from_img (some ⟨"high", "", "", "", []⟩) = none := by
  decide

/-- C8, amended: the main processor's detector concatenates alt, title and
src and returns RED when the text contains "red" or "critical" (checked
before the YELLOW and GREEN keywords); the RED keyword list
("red", "critical", "high", "severe") belongs to the v1 detector, which
concatenates alt and src only, so "severe"/"high" alt text detects RED in
`ewa_html_processor_v1.py` but is undetected in `ewa_html_processor.py`. -/
theorem red_keywords_detector_amended :
    (∀ img : Img,
      (strContains "red"
          (pyLower img.alt ++ " " ++ pyLower img.title ++ " " ++ pyLower img.src) = true ∨
       strContains "critical"
          (pyLower img.alt ++ " " ++ pyLower img.title ++ " " ++ pyLower img.src) = true) →
      detect_status_from_img (some img) = some ("RED", "🔴")) ∧
    (∀ img : Img,
      (["red", "critical", "high", "severe"].any
          (fun k => strContains k (pyLower img.alt ++ " " ++ pyLower img.src)) = true) →
      detect_status_from_img_v1 (some img) = some ("RED", "🔴")) ∧
    detect_status_from_img_v1 (some ⟨"severe", "", "", "", []⟩) = some ("RED", "🔴") ∧
    detect_status_from_img_v1 (some ⟨"high", "", "", "", []⟩) = some ("RED", "🔴") := by
  refine ⟨?_, ?_, by decide, by decide⟩
  · intro img h
    simp only [detect_status_from_img]
    rw [if_pos]
    · rfl
    · rcases h with h | h <;> simp [h]
  · intro img h
    simp only [detect_status_from_img_v1]
    rw [if_pos h]
    rfl

/-- C8 witness: the amended theorem applied at a concrete icon element. -/
theorem red_keywords_detector_amended_witness :
    detect_status_from_img (some ⟨"", "critical issue", "", "", []⟩) = some ("RED", "🔴") :=
  red_keywords_detector_amended.1 ⟨"", "critical issue", "", "", []⟩ (Or.inr (by decide))

/-- C5: `map_to_primary` concatenates section and label, lowercases, walks
the 13 canonical KPIs in the dict's fixed insertion order and returns the
first KPI one of whose keyword phrases occurs as a substring (`none` when
no KPI matches); `classify("Hardware Capacity", "CPU utilization 95%")`
yields the Hardware Capacity KPI (determinism is inherent: the function is
pure). -/
theorem map_to_primary_first_match :
    PRIMARY_KPI_KEYWORDS.length = 13 ∧
    PRIMARY_KPI_KEYWORDS.map Prod.fst = PRIMARY_KPI_ORDER ∧
    (∀ s t k, map_to_primary s t = some k →
      ∃ pre kws suf, PRIMARY_KPI_KEYWORDS = pre ++ (k, kws) :: suf ∧
        kws.any (fun kw => strContains kw (pyLower (s ++ " " ++ t))) = true ∧
        ∀ p ∈ pre,
          p.2.any (fun kw => strContains kw (pyLower (s ++ " " ++ t))) = false) ∧
    (∀ s t, map_to_primary s t = none ↔
      ∀ p ∈ PRIMARY_KPI_KEYWORDS,
        p.2.any (fun kw => strContains kw (pyLower (s ++ " " ++ t))) = false) ∧
    map_to_primary "Hardware Capacity" "CPU utilization 95%" = some "Hardware Capacity" := by
  refine ⟨by decide, by decide, ?_, ?_, by decide⟩
  · intro s t k h
    exact lookupKpi_some_spec (pyLower (s ++ " " ++ t)) PRIMARY_KPI_KEYWORDS k h
  · intro s t
    exact lookupKpi_none_spec (pyLower (s ++ " " ++ t)) PRIMARY_KPI_KEYWORDS

/-- C5 witness: the characterization applied at a concrete non-matching
input. -/
theorem map_to_primary_first_match_witness : map_to_primary "zzz" "qqq" = none :=
  (map_to_primary_first_match.2.2.2.1 "zzz" "qqq").mpr (by decide)

/-- The fold inside `pickLongest` (Python `max(·, key=len)`): the result is
the seed or a list element, is at least as long as the seed, and is at
least as long as every list element. -/
theorem foldl_pick_spec (ts : List String) : ∀ best : String,
    (ts.foldl (fun b x => if x.length > b.length then x else b) best ∈ best :: ts) ∧
    best.length ≤ (ts.foldl (fun b x => if x.length > b.length then x else b) best).length ∧
    ∀ t ∈ ts, t.length ≤ (ts.foldl (fun b x => if x.length > b.length then x else b) best).length := by
  induction ts with
  | nil => intro best; simp
  | cons x xs ih =>
    intro best
    rw [List.foldl_cons]
    by_cases h : x.length > best.length
    · simp only [if_pos h]
      obtain ⟨hmem, hle, hall⟩ := ih x
      refine ⟨?_, Nat.le_trans (Nat.le_of_lt h) hle, ?_⟩
      · rcases List.mem_cons.mp hmem with h1 | h1
        · exact List.mem_cons.mpr (Or.inr (List.mem_cons.mpr (Or.inl h1)))
        · exact List.mem_cons.mpr (Or.inr (List.mem_cons.mpr (Or.inr h1)))
      · intro t ht
        rcases List.mem_cons.mp ht with rfl | ht'
        · exact hle
        · exact hall t ht'
    · simp only [if_neg h]
      obtain ⟨hmem, hle, hall⟩ := ih best
      refine ⟨?_, hle, ?_⟩
      · rcases List.mem_cons.mp hmem with h1 | h1
        · exact List.mem_cons.mpr (Or.inl h1)
        · exact List.mem_cons.mpr (Or.inr (List.mem_cons.mpr (Or.inr h1)))
      · intro t ht
        rcases List.mem_cons.mp ht with rfl | ht'
        · exact Nat.le_trans (Nat.le_of_not_lt h) hle
        · exact hall t ht'

/-- `pickLongest` of a non-empty list is a member of maximal length. -/
theorem pickLongest_spec (l : List String) (h : l ≠ []) :
    pickLongest l ∈ l ∧ ∀ t ∈ l, t.length ≤ (pickLongest l).length := by
  match l with
  | [] => exact absurd rfl h
  | t :: ts =>
    obtain ⟨hmem, hle, hall⟩ := foldl_pick_spec ts t
    rw [pickLongest]
    refine ⟨hmem, ?_⟩
    intro u hu
    rcases List.mem_cons.mp hu with rfl | hu'
    · exact hle
    · exact hall u hu'

/-- A candidate is not the empty string. -/
theorem isCandidate_ne_empty (t : String) (h : isCandidate t = true) : t ≠ "" := by
  simp only [isCandidate, Bool.and_eq_true, decide_eq_true_eq] at h
  exact h.1.1

/-- C9: the label fallback chain of the row extractor — among normalized
cell texts the candidates are those longer than 2 characters and not purely
numeric; if candidates exist the label is (the first) one of maximal
length; else the first non-empty cell text; else the sentinel
"(no label)". -/
theorem rowLabel_fallback_chain (cellTexts : List String) :
    ((cellTexts.map pyNorm).filter isCandidate ≠ [] →
      rowLabel cellTexts ∈ (cellTexts.map pyNorm).filter isCandidate ∧
      ∀ t ∈ (cellTexts.map pyNorm).filter isCandidate,
        t.length ≤ (rowLabel cellTexts).length) ∧
    (∀ t, (cellTexts.map pyNorm).filter isCandidate = [] →
      (cellTexts.map pyNorm).find? (fun t => t ≠ "") = some t →
      rowLabel cellTexts = t) ∧
    ((∀ t ∈ cellTexts.map pyNorm, t = "") → rowLabel cellTexts = "(no label)") := by
  refine ⟨?_, ?_, ?_⟩
  · intro hc
    obtain ⟨hmem, hall⟩ := pickLongest_spec _ hc
    have hne : pickLongest ((cellTexts.map pyNorm).filter isCandidate) ≠ "" :=
      isCandidate_ne_empty _ (List.of_mem_filter hmem)
    have hlab : rowLabel cellTexts = pickLongest ((cellTexts.map pyNorm).filter isCandidate) := by
      rw [rowLabel]
      rw [if_pos hc, if_neg hne]
    rw [hlab]
    exact ⟨hmem, hall⟩
  · intro t hc hf
    have ht : t ≠ "" := by
      have := List.find?_some hf
      simpa using this
    rw [rowLabel,
      if_neg (show ¬((cellTexts.map pyNorm).filter isCandidate ≠ []) from by simp [hc]),
      hf]
    simp [ht]
  · intro hall
    have hc : (cellTexts.map pyNorm).filter isCandidate = [] := by
      rw [List.filter_eq_nil_iff]
      intro t ht
      rw [hall t ht]
      decide
    have hf : (cellTexts.map pyNorm).find? (fun t => t ≠ "") = none := by
      rw [List.find?_eq_none]
      intro t ht
      simp [hall t ht]
    rw [rowLabel,
      if_neg (show ¬((cellTexts.map pyNorm).filter isCandidate ≠ []) from by simp [hc]),
      hf]
    rfl

/-- C9 witness: the chain applied at a row of empty cells. -/
theorem rowLabel_fallback_chain_witness : rowLabel ["", "  "] = "(no label)" :=
  (rowLabel_fallback_chain ["", "  "]).2.2 (by decide)

/-- Spec of `foldl max`: the result is the seed or a member, and dominates
the seed and every member. -/
theorem foldl_max_spec (l : List Nat) : ∀ a : Nat,
    (l.foldl max a = a ∨ l.foldl max a ∈ l) ∧
    a ≤ l.foldl max a ∧ ∀ x ∈ l, x ≤ l.foldl max a := by
  induction l with
  | nil => intro a; simp
  | cons x xs ih =>
    intro a
    rw [List.foldl_cons]
    obtain ⟨hmem, hle, hall⟩ := ih (max a x)
    refine ⟨?_, le_trans (le_max_left a x) hle, ?_⟩
    · rcases hmem with h1 | h1
      · rcases max_choice a x with h2 | h2
        · exact Or.inl (h1.trans h2)
        · exact Or.inr (List.mem_cons.mpr (Or.inl (h1.trans h2)))
      · exact Or.inr (List.mem_cons.mpr (Or.inr h1))
    · intro y hy
      rcases List.mem_cons.mp hy with rfl | hy'
      · exact le_trans (le_max_right a y) hle
      · exact hall y hy'

/-- Membership in the group keys: exactly the (system, date, KPI) triples of
records carrying a non-null date. -/
theorem mem_groupKeys {rs : List Mapped} {k1 : String} {k2 : Nat} {k3 : String} :
    (k1, k2, k3) ∈ groupKeys rs ↔
      ∃ r ∈ rs, r.system = k1 ∧ r.report_date = some k2 ∧ r.primary_kpi = k3 := by
  unfold groupKeys
  rw [List.mem_dedup, List.mem_filterMap]
  constructor
  · rintro ⟨r, hr, hmap⟩
    match hd : r.report_date with
    | none => rw [hd] at hmap; simp at hmap
    | some d =>
      rw [hd] at hmap
      simp only [Option.map_some', Option.some_inj, Prod.mk.injEq] at hmap
      obtain ⟨h1, h2, h3⟩ := hmap
      exact ⟨r, hr, h1, by rw [hd, h2], h3⟩
  · rintro ⟨r, hr, h1, h2, h3⟩
    exact ⟨r, hr, by rw [h2, Option.map_some', h1, h3]⟩

/-- Membership in a group. -/
theorem mem_groupOf {r : Mapped} {key : String × Nat × String} {rs : List Mapped} :
    r ∈ groupOf key rs ↔
      r ∈ rs ∧ r.system = key.1 ∧ r.report_date = some key.2.1 ∧ r.primary_kpi = key.2.2 := by
  unfold groupOf
  rw [List.mem_filter]
  simp [and_assoc]

/-- For one of the three valid status names, `REV_SEV` inverts `SEV_ORDER`. -/
theorem REV_SEV_SEV_ORDER {s : String}
    (h : s = "GREEN" ∨ s = "YELLOW" ∨ s = "RED") :
    ∀ n, SEV_ORDER s = some n → REV_SEV n = s := by
  rcases h with rfl | rfl | rfl <;> intro n hn
  · obtain rfl : (1 : Nat) = n := Option.some_inj.mp hn
    rfl
  · obtain rfl : (2 : Nat) = n := Option.some_inj.mp hn
    rfl
  · obtain rfl : (3 : Nat) = n := Option.some_inj.mp hn
    rfl

/-- A valid status name has a severity rank. -/
theorem SEV_ORDER_isSome {s : String}
    (h : s = "GREEN" ∨ s = "YELLOW" ∨ s = "RED") :
    ∃ n, SEV_ORDER s = some n ∧ 1 ≤ n := by
  rcases h with rfl | rfl | rfl
  · exact ⟨1, rfl, by decide⟩
  · exact ⟨2, rfl, by decide⟩
  · exact ⟨3, rfl, by decide⟩

/-- C2: the severity reduction groups classified records by
(system, report_date, primary_kpi) — `system` is the constant "A1C" for
every record this pipeline produces, so this is grouping by (date, KPI) —
and each group's summary status is the status of a group member whose
severity rank dominates the whole group (GREEN < YELLOW < RED); the status
is invariant under permutation of the input records; concretely, a GREEN
and a RED record on the same key reduce to RED in either input order. -/
theorem severity_reduction_worst_wins :
    (∀ (rs : List Mapped) (key : String × Nat × String),
      (∀ r ∈ rs, r.status_name = "GREEN" ∨ r.status_name = "YELLOW" ∨ r.status_name = "RED") →
      key ∈ groupKeys rs →
      ∃ r ∈ groupOf key rs, r.status_name = (reduceGroup key rs).status_name ∧
        ∀ r' ∈ groupOf key rs,
          (SEV_ORDER r'.status_name).getD 0 ≤ (SEV_ORDER r.status_name).getD 0) ∧
    (∀ (rs rs' : List Mapped) (key : String × Nat × String), rs.Perm rs' →
      (reduceGroup key rs).status_name = (reduceGroup key rs').status_name) ∧
    (summaryPrePad [⟨"A1C", some 20251118, "Security", "GREEN", "🟢", "a.html"⟩,
        ⟨"A1C", some 20251118, "Security", "RED", "🔴", "b.html"⟩]).map
      (fun s => s.status_name) = ["RED"] ∧
    (summaryPrePad [⟨"A1C", some 20251118, "Security", "RED", "🔴", "b.html"⟩,
        ⟨"A1C", some 20251118, "Security", "GREEN", "🟢", "a.html"⟩]).map
      (fun s => s.status_name) = ["RED"] := by
  refine ⟨?_, ?_, by decide, by decide⟩
  · intro rs key hvalid hkey
    obtain ⟨k1, k2, k3⟩ := key
    obtain ⟨r0, hr0, h1, h2, h3⟩ := mem_groupKeys.mp hkey
    have hr0g : r0 ∈ groupOf (k1, k2, k3) rs := mem_groupOf.mpr ⟨hr0, h1, h2, h3⟩
    obtain ⟨n0, hn0, hn0ge⟩ := SEV_ORDER_isSome (hvalid r0 hr0)
    have hn0mem : n0 ∈ (groupOf (k1, k2, k3) rs).filterMap
        (fun r => SEV_ORDER r.status_name) :=
      List.mem_filterMap.mpr ⟨r0, hr0g, hn0⟩
    obtain ⟨hmax_mem, _, hmax_all⟩ :=
      foldl_max_spec ((groupOf (k1, k2, k3) rs).filterMap
        (fun r => SEV_ORDER r.status_name)) 0
    have hpos : 1 ≤ groupSeverity (groupOf (k1, k2, k3) rs) :=
      le_trans hn0ge (hmax_all n0 hn0mem)
    have hmem : groupSeverity (groupOf (k1, k2, k3) rs) ∈
        (groupOf (k1, k2, k3) rs).filterMap (fun r => SEV_ORDER r.status_name) := by
      rcases hmax_mem with h | h
      · rw [groupSeverity] at hpos
        rw [h] at hpos
        exact absurd hpos (by decide)
      · exact h
    obtain ⟨r, hrg, hrsev⟩ := List.mem_filterMap.mp hmem
    refine ⟨r, hrg, ?_, ?_⟩
    · have hstat : (reduceGroup (k1, k2, k3) rs).status_name =
          REV_SEV (groupSeverity (groupOf (k1, k2, k3) rs)) := rfl
      rw [hstat]
      exact (REV_SEV_SEV_ORDER (hvalid r (mem_groupOf.mp hrg).1) _ hrsev).symm
    · intro r' hr'
      obtain ⟨m, hm, _⟩ := SEV_ORDER_isSome (hvalid r' (mem_groupOf.mp hr').1)
      have hmmem : m ∈ (groupOf (k1, k2, k3) rs).filterMap
          (fun r => SEV_ORDER r.status_name) :=
        List.mem_filterMap.mpr ⟨r', hr', hm⟩
      rw [hm, hrsev]
      simpa using hmax_all m hmmem
  · intro rs rs' key h
    have hsev : groupSeverity (groupOf key rs) = groupSeverity (groupOf key rs') :=
      ((h.filter _).filterMap _).foldl_eq'
        (fun x _ y _ z => by rw [Nat.max_assoc, Nat.max_comm x y, ← Nat.max_assoc]) 0
    show REV_SEV (groupSeverity (groupOf key rs)) =
      REV_SEV (groupSeverity (groupOf key rs'))
    rw [hsev]

/-- C2 witness: order invariance applied at a concrete two-record swap. -/
theorem severity_reduction_worst_wins_witness :
    (reduceGroup ("A1C", 20251118, "Security")
        [⟨"A1C", some 20251118, "Security", "GREEN", "🟢", "a.html"⟩,
         ⟨"A1C", some 20251118, "Security", "RED", "🔴", "b.html"⟩]).status_name =
      (reduceGroup ("A1C", 20251118, "Security")
        [⟨"A1C", some 20251118, "Security", "RED", "🔴", "b.html"⟩,
         ⟨"A1C", some 20251118, "Security", "GREEN", "🟢", "a.html"⟩]).status_name :=
  severity_reduction_worst_wins.2.1 _ _ ("A1C", 20251118, "Security")
    (List.Perm.swap _ _ _)

/-- `insertSorted` permutes consing. -/
theorem insertSorted_perm (n : Nat) (l : List Nat) : (insertSorted n l).Perm (n :: l) := by
  induction l with
  | nil => rw [insertSorted]
  | cons m ms ih =>
    rw [insertSorted]
    by_cases h : n ≤ m
    · rw [if_pos h]
    · rw [if_neg h]
      exact (ih.cons m).trans (List.Perm.swap n m ms)

/-- `sortNats` permutes its input. -/
theorem sortNats_perm (l : List Nat) : (sortNats l).Perm l := by
  induction l with
  | nil => rfl
  | cons x xs ih =>
    rw [sortNats, List.foldr_cons]
    exact (insertSorted_perm x (List.foldr insertSorted [] xs)).trans (ih.cons x)

/-- Membership in `allDates`. -/
theorem mem_allDates {s : List SummaryRecord} {d : Nat} :
    d ∈ allDates s ↔ d ∈ s.map (fun r => r.report_date) := by
  unfold allDates
  rw [(sortNats_perm _).mem_iff, List.mem_dedup]

/-- `allDates` holds no duplicates. -/
theorem allDates_nodup (s : List SummaryRecord) : (allDates s).Nodup :=
  ((sortNats_perm _).nodup_iff).mpr (List.nodup_dedup _)

/-- Key projections of a reduced group row. -/
theorem reduceGroup_system (key : String × Nat × String) (rs : List Mapped) :
    (reduceGroup key rs).system = key.1 := rfl

theorem reduceGroup_date (key : String × Nat × String) (rs : List Mapped) :
    (reduceGroup key rs).report_date = key.2.1 := rfl

theorem reduceGroup_kpi (key : String × Nat × String) (rs : List Mapped) :
    (reduceGroup key rs).primary_kpi = key.2.2 := rfl

/-- The single-system product flattens away. -/
theorem pad_eq_flatMap (s : List SummaryRecord) :
    pad s = (allDates s).flatMap (fun d =>
      PRIMARY_KPI_ORDER.map (fun k => padCell s "A1C" d k)) := by
  unfold pad
  rw [List.flatMap_cons, List.flatMap_nil, List.append_nil]

/-- A pad cell is an input row or the default row. -/
theorem mem_padCell_or (s : List SummaryRecord) (sys : String) (d : Nat) (k : String) :
    padCell s sys d k ∈ s ∨ padCell s sys d k = padDefault sys d k := by
  unfold padCell
  cases hf : s.find? (fun r => r.system = sys && r.report_date = d && r.primary_kpi = k) with
  | none => exact Or.inr rfl
  | some r => exact Or.inl (List.mem_of_find?_eq_some hf)

/-- Over rows produced by `reduceGroup`, `find?` at a present key returns
that key's row (duplicate keys map to identical rows, so no nodup
hypothesis is needed). -/
theorem find?_map_reduceGroup (rs : List Mapped) :
    ∀ (keys : List (String × Nat × String)) (k1 : String) (k2 : Nat) (k3 : String),
      (k1, k2, k3) ∈ keys →
      (keys.map (fun key => reduceGroup key rs)).find?
          (fun r => r.system = k1 && r.report_date = k2 && r.primary_kpi = k3) =
        some (reduceGroup (k1, k2, k3) rs) := by
  intro keys
  induction keys with
  | nil => intro k1 k2 k3 h; cases h
  | cons key rest ih =>
    intro k1 k2 k3 h
    obtain ⟨a, b, c⟩ := key
    rw [List.map_cons]
    by_cases heq : a = k1 ∧ b = k2 ∧ c = k3
    · obtain ⟨rfl, rfl, rfl⟩ := heq
      rw [List.find?_cons_of_pos]
      simp [reduceGroup_system, reduceGroup_date, reduceGroup_kpi]
    · rw [List.find?_cons_of_neg]
      · apply ih
        rcases List.mem_cons.mp h with h1 | h1
        · exfalso
          apply heq
          simp only [Prod.mk.injEq] at h1
          exact ⟨h1.1.symm, h1.2.1.symm, h1.2.2.symm⟩
        · exact h1
      · simp only [reduceGroup_system, reduceGroup_date, reduceGroup_kpi,
          Bool.and_eq_true, decide_eq_true_eq]
        exact fun hh => heq ⟨hh.1.1, hh.1.2, hh.2⟩

/-- `find?` over the pre-padding summary at a present group key. -/
theorem find?_summaryPrePad {rs : List Mapped} {k1 : String} {k2 : Nat} {k3 : String}
    (h : (k1, k2, k3) ∈ groupKeys rs) :
    (summaryPrePad rs).find?
        (fun r => r.system = k1 && r.report_date = k2 && r.primary_kpi = k3) =
      some (reduceGroup (k1, k2, k3) rs) :=
  find?_map_reduceGroup rs (groupKeys rs) k1 k2 k3 h

/-- C3: for every date of the pre-padding summary and every canonical KPI
with no classified record on that (date, KPI), the padding step synthesizes
the default row — status GREEN, the green glyph, and source_file
"No alert". -/
theorem summaryPadder_default_fill :
    ∀ (rs : List Mapped) (d : Nat) (k : String),
      k ∈ PRIMARY_KPI_ORDER →
      d ∈ allDates (summaryPrePad rs) →
      (∀ r ∈ rs, ¬(r.system = "A1C" ∧ r.report_date = some d ∧ r.primary_kpi = k)) →
      padDefault "A1C" d k ∈ pad (summaryPrePad rs) := by
  intro rs d k hk hd hnone
  have hfind : (summaryPrePad rs).find?
      (fun r => r.system = "A1C" && r.report_date = d && r.primary_kpi = k) = none := by
    rw [List.find?_eq_none]
    intro x hx
    obtain ⟨key, hkey, rfl⟩ := List.mem_map.mp hx
    obtain ⟨a, b, c⟩ := key
    intro hpred
    simp only [reduceGroup_system, reduceGroup_date, reduceGroup_kpi,
      Bool.and_eq_true, decide_eq_true_eq] at hpred
    obtain ⟨⟨rfl, rfl⟩, rfl⟩ := hpred
    obtain ⟨r, hr, hr1, hr2, hr3⟩ := mem_groupKeys.mp hkey
    exact hnone r hr ⟨hr1, hr2, hr3⟩
  rw [pad_eq_flatMap]
  refine List.mem_flatMap.mpr ⟨d, hd, ?_⟩
  refine List.mem_map.mpr ⟨k, hk, ?_⟩
  unfold padCell
  rw [hfind]

/-- C3 witness: the default fill at a concrete one-record input. -/
theorem summaryPadder_default_fill_witness :
    padDefault "A1C" 20251118 "Hardware Capacity" ∈
      pad (summaryPrePad [⟨"A1C", some 20251118, "Security", "RED", "🔴", "b.html"⟩]) :=
  summaryPadder_default_fill [⟨"A1C", some 20251118, "Security", "RED", "🔴", "b.html"⟩]
    20251118 "Hardware Capacity" (by decide) (by decide) (by decide)

/-- C10: padding is a pure extension of the pre-padding summary — every
pre-padding row (its key holding the pipeline-invariant system "A1C" and a
canonical KPI) appears unchanged in the padded output, and every padded row
is either a pre-padding row or a synthesized all-default row. -/
theorem summaryPadder_pure_extension :
    ∀ rs : List Mapped,
      (∀ r ∈ rs, r.system = "A1C") →
      (∀ r ∈ rs, r.primary_kpi ∈ PRIMARY_KPI_ORDER) →
      (∀ s ∈ summaryPrePad rs, s ∈ pad (summaryPrePad rs)) ∧
      (∀ t ∈ pad (summaryPrePad rs), t ∈ summaryPrePad rs ∨
        (t.status_name = "GREEN" ∧ t.status_symbol = "🟢" ∧ t.source_file = "No alert")) := by
  intro rs hsys hkpi
  constructor
  · intro s hs
    obtain ⟨key, hkey, rfl⟩ := List.mem_map.mp hs
    obtain ⟨k1, k2, k3⟩ := key
    obtain ⟨r0, hr0, hs1, hs2, hs3⟩ := mem_groupKeys.mp hkey
    have hk1 : k1 = "A1C" := by rw [← hs1]; exact hsys r0 hr0
    have hk3 : k3 ∈ PRIMARY_KPI_ORDER := by rw [← hs3]; exact hkpi r0 hr0
    have hrow : reduceGroup (k1, k2, k3) rs ∈ summaryPrePad rs :=
      List.mem_map.mpr ⟨(k1, k2, k3), hkey, rfl⟩
    have hd : k2 ∈ allDates (summaryPrePad rs) := by
      rw [mem_allDates]
      exact List.mem_map.mpr ⟨reduceGroup (k1, k2, k3) rs, hrow, rfl⟩
    subst hk1
    rw [pad_eq_flatMap]
    refine List.mem_flatMap.mpr ⟨k2, hd, ?_⟩
    refine List.mem_map.mpr ⟨k3, hk3, ?_⟩
    unfold padCell
    rw [find?_summaryPrePad hkey]
  · intro t ht
    rw [pad_eq_flatMap] at ht
    obtain ⟨d, _, ht2⟩ := List.mem_flatMap.mp ht
    obtain ⟨k, _, rfl⟩ := List.mem_map.mp ht2
    rcases mem_padCell_or (summaryPrePad rs) "A1C" d k with h | h
    · exact Or.inl h
    · right
      rw [h]
      exact ⟨rfl, rfl, rfl⟩

/-- C10 witness: the extension property applied at a concrete one-record
input whose reduced row must survive padding unchanged. -/
theorem summaryPadder_pure_extension_witness :
    (⟨"A1C", 20251118, "Security", "RED", "🔴", "b.html"⟩ : SummaryRecord) ∈
      pad (summaryPrePad [⟨"A1C", some 20251118, "Security", "RED", "🔴", "b.html"⟩]) :=
  (summaryPadder_pure_extension [⟨"A1C", some 20251118, "Security", "RED", "🔴", "b.html"⟩]
    (by decide) (by decide)).1
    ⟨"A1C", 20251118, "Security", "RED", "🔴", "b.html"⟩ (by decide)

/-- The three deliberate raise sites of the exception-free pipeline model:
its error cases are exactly no-docs / no-rows / no-mapped-rows. -/
theorem build_error_iff (docs : List Doc) :
    (∃ e, build_detail_and_summary docs = .error e) ↔
      (docs = [] ∨ docs.flatMap parse_single_html = [] ∨
        mapRows (docs.flatMap parse_single_html) = []) := by
  unfold build_detail_and_summary
  by_cases h1 : docs.isEmpty
  · rw [List.isEmpty_iff] at h1
    simp [h1]
  · rw [List.isEmpty_iff] at h1
    by_cases h2 : (docs.flatMap parse_single_html).isEmpty
    · rw [List.isEmpty_iff] at h2
      simp [h1, h2]
    · rw [List.isEmpty_iff] at h2
      by_cases h3 : (mapRows (docs.flatMap parse_single_html)).isEmpty
      · rw [List.isEmpty_iff] at h3
        simp [h1, h2, h3]
      · rw [List.isEmpty_iff] at h3
        simp [h1, h2, h3]

/-- The no-extracted-rows diagnostic of the exception-free model. -/
theorem build_error_no_entries (docs : List Doc) (h1 : docs ≠ [])
    (h2 : docs.flatMap parse_single_html = []) :
    build_detail_and_summary docs =
      .error "No KPI entries extracted — check HTML format." := by
  unfold build_detail_and_summary
  rw [if_neg (by simpa [List.isEmpty_iff] using h1),
    if_pos (by simpa [List.isEmpty_iff] using h2)]

/-- The no-classified-rows diagnostic of the exception-free model. -/
theorem build_error_no_mapped (docs : List Doc) (h1 : docs ≠ [])
    (h2 : docs.flatMap parse_single_html ≠ [])
    (h3 : mapRows (docs.flatMap parse_single_html) = []) :
    build_detail_and_summary docs =
      .error "No rows mapped to primary KPI — check keyword mapping." := by
  unfold build_detail_and_summary
  rw [if_neg (by simpa [List.isEmpty_iff] using h1),
    if_neg (by simpa [List.isEmpty_iff] using h2),
    if_pos (by simpa [List.isEmpty_iff] using h3)]

/-- When every filename's date extraction succeeds, the per-file loop
collects exactly the concatenated parses. -/
theorem parseAll_ok (docs : List Doc)
    (h : ∀ doc ∈ docs, extract_date_from_filename_checked doc.name =
      .ok (extract_date_from_filename doc.name)) :
    parseAll docs = .ok (docs.flatMap parse_single_html) := by
  induction docs with
  | nil => rfl
  | cons doc rest ih =>
    rw [parseAll, h doc (List.mem_cons_self doc rest),
      ih (fun d hd => h d (List.mem_cons_of_mem _ hd)), List.flatMap_cons]

/-- A `ValueError` on any filename aborts the per-file loop. -/
theorem parseAll_error (docs : List Doc)
    (h : ∃ doc ∈ docs, ∃ e, extract_date_from_filename_checked doc.name = .error e) :
    ∃ e, parseAll docs = .error e := by
  induction docs with
  | nil =>
    obtain ⟨d, hd, -⟩ := h
    cases hd
  | cons doc rest ih =>
    cases hc : extract_date_from_filename_checked doc.name with
    | error e => exact ⟨e, by rw [parseAll, hc]⟩
    | ok v =>
      obtain ⟨d, hd, e, he⟩ := h
      rcases List.mem_cons.mp hd with rfl | hd'
      · rw [hc] at he
        cases he
      · obtain ⟨e', he'⟩ := ih ⟨d, hd', e, he⟩
        exact ⟨e', by rw [parseAll, hc, he']⟩

/-- On inputs whose filenames all carry a valid-or-absent date token, the
exception-propagating run equals the exception-free one. -/
theorem build_exn_eq_of_ok (docs : List Doc)
    (h : ∀ doc ∈ docs, extract_date_from_filename_checked doc.name =
      .ok (extract_date_from_filename doc.name)) :
    build_detail_and_summary_exn docs = build_detail_and_summary docs := by
  unfold build_detail_and_summary_exn build_detail_and_summary
  by_cases h1 : docs.isEmpty
  · rw [if_pos h1, if_pos h1]
  · rw [if_neg h1, if_neg h1, parseAll_ok docs h]

/-- C7, counterexample: one well-formed document whose filename token
20251399 is not a valid date — none of the three claimed fatal cases holds
(documents exist, records are extracted, records classify), the three-case
pipeline would even succeed, yet the run aborts with the uncaught
`strptime` `ValueError`: a fourth halt case, refuting "exactly". -/
theorem invalid_date_token_aborts_cex :
    build_detail_and_summary_exn [invalidDoc] =
      .error "ValueError: time data 20251399 does not match format %Y%m%d" ∧
    [invalidDoc] ≠ [] ∧
    [invalidDoc].flatMap parse_single_html ≠ [] ∧
    mapRows ([invalidDoc].flatMap parse_single_html) ≠ [] ∧
    (build_detail_and_summary [invalidDoc]).toOption ≠ none := by
  decide

/-- C7, amended: the run halts with a descriptive error — and writes no
summary — in the three deliberate fatal cases (no HTML documents, no
extracted records, no record classifying to a canonical KPI), and these are
exhaustive only for runs in which every filename's 8-digit token, if
present, is a valid date; a filename whose token is not a valid `YYYYMMDD`
date additionally aborts the run with an uncaught `ValueError` before the
remaining files are processed. -/
theorem build_fatal_cases_amended :
    (∀ docs : List Doc,
      (∀ doc ∈ docs, extract_date_from_filename_checked doc.name =
        .ok (extract_date_from_filename doc.name)) →
      ((∃ e, build_detail_and_summary_exn docs = .error e) ↔
        (docs = [] ∨ docs.flatMap parse_single_html = [] ∨
          mapRows (docs.flatMap parse_single_html) = []))) ∧
    build_detail_and_summary_exn [] = .error "No HTML files found" ∧
    (∀ docs : List Doc,
      (∀ doc ∈ docs, extract_date_from_filename_checked doc.name =
        .ok (extract_date_from_filename doc.name)) →
      docs ≠ [] → docs.flatMap parse_single_html = [] →
      build_detail_and_summary_exn docs =
        .error "No KPI entries extracted — check HTML format.") ∧
    (∀ docs : List Doc,
      (∀ doc ∈ docs, extract_date_from_filename_checked doc.name =
        .ok (extract_date_from_filename doc.name)) →
      docs ≠ [] → docs.flatMap parse_single_html ≠ [] →
      mapRows (docs.flatMap parse_single_html) = [] →
      build_detail_and_summary_exn docs =
        .error "No rows mapped to primary KPI — check keyword mapping.") ∧
    (∀ docs : List Doc, docs ≠ [] →
      (∃ doc ∈ docs, ∃ e, extract_date_from_filename_checked doc.name = .error e) →
      ∃ e, build_detail_and_summary_exn docs = .error e) := by
  refine ⟨?_, rfl, ?_, ?_, ?_⟩
  · intro docs h
    rw [build_exn_eq_of_ok docs h]
    exact build_error_iff docs
  · intro docs h h1 h2
    rw [build_exn_eq_of_ok docs h]
    exact build_error_no_entries docs h1 h2
  · intro docs h h1 h2 h3
    rw [build_exn_eq_of_ok docs h]
    exact build_error_no_mapped docs h1 h2 h3
  · intro docs h1 hex
    obtain ⟨e', he'⟩ := parseAll_error docs hex
    refine ⟨e', ?_⟩
    unfold build_detail_and_summary_exn
    rw [if_neg (by simpa [List.isEmpty_iff] using h1), he']

/-- C7 witness: a run over one valid-dated, marker-free document fails with
the no-entries diagnostic. -/
theorem build_fatal_cases_amended_witness :
    build_detail_and_summary_exn [emptyDoc] =
      .error "No KPI entries extracted — check HTML format." :=
  build_fatal_cases_amended.2.2.1 [emptyDoc] (by decide) (by decide) (by decide)

/-- In a duplicate-free list a present element is counted once. -/
theorem countP_eq_one_of_nodup_mem {α : Type} [DecidableEq α] :
    ∀ (l : List α), l.Nodup → ∀ a ∈ l, l.countP (fun x => decide (x = a)) = 1 := by
  intro l
  induction l with
  | nil => intro _ a ha; cases ha
  | cons x xs ih =>
    intro hnd a ha
    rw [List.countP_cons]
    rcases List.mem_cons.mp ha with rfl | hmem
    · have hx : a ∉ xs := (List.nodup_cons.mp hnd).1
      have hz : xs.countP (fun y => decide (y = a)) = 0 := by
        rw [List.countP_eq_zero]
        intro y hy
        simp only [decide_eq_true_eq]
        exact fun h => hx (h ▸ hy)
      simp [hz]
    · have hne : x ≠ a := fun h => (List.nodup_cons.mp hnd).1 (h ▸ hmem)
      rw [ih (List.nodup_cons.mp hnd).2 a hmem]
      simp [hne]

/-- Key projections of a pad cell: whether found or defaulted, the row at
product position (sys, d, k) carries exactly that key. -/
theorem padCell_fields (s : List SummaryRecord) (sys : String) (d : Nat) (k : String) :
    (padCell s sys d k).system = sys ∧ (padCell s sys d k).report_date = d ∧
    (padCell s sys d k).primary_kpi = k := by
  unfold padCell
  cases hf : s.find? (fun r => r.system = sys && r.report_date = d && r.primary_kpi = k) with
  | none => exact ⟨rfl, rfl, rfl⟩
  | some r =>
    have h := List.find?_some hf
    simp only [Bool.and_eq_true, decide_eq_true_eq] at h
    exact ⟨h.1.1, h.1.2, h.2⟩

/-- Date filter over one product block: 13 rows on the block's own date,
none otherwise. -/
theorem filter_block_date (s : List SummaryRecord) (d' d : Nat) :
    ((PRIMARY_KPI_ORDER.map (fun k => padCell s "A1C" d' k)).filter
      (fun r => r.report_date = d)).length = if d' = d then 13 else 0 := by
  by_cases h : d' = d
  · subst h
    rw [if_pos rfl]
    rw [List.filter_eq_self.mpr ?_, List.length_map]
    · rfl
    · intro r hr
      obtain ⟨k, _, rfl⟩ := List.mem_map.mp hr
      simp [(padCell_fields s "A1C" d' k).2.1]
  · rw [if_neg h, List.length_eq_zero, List.filter_eq_nil_iff]
    intro r hr
    obtain ⟨k, _, rfl⟩ := List.mem_map.mp hr
    simp [(padCell_fields s "A1C" d' k).2.1, h]

/-- (date, KPI) filter over one product block: exactly one row when the
dates agree and the KPI is canonical, none when the dates differ. -/
theorem filter_block_date_kpi (s : List SummaryRecord) (d' d : Nat) (k : String)
    (hk : k ∈ PRIMARY_KPI_ORDER) :
    ((PRIMARY_KPI_ORDER.map (fun k' => padCell s "A1C" d' k')).filter
      (fun r => r.report_date = d && r.primary_kpi = k)).length =
      if d' = d then 1 else 0 := by
  rw [List.filter_map _ _, List.length_map, ← List.countP_eq_length_filter]
  by_cases h : d' = d
  · subst h
    rw [if_pos rfl]
    rw [List.countP_congr (q := fun k' => decide (k' = k)) ?_]
    · exact countP_eq_one_of_nodup_mem PRIMARY_KPI_ORDER (by decide) k hk
    · intro k' _
      simp [Function.comp, (padCell_fields s "A1C" d' k').2.1,
        (padCell_fields s "A1C" d' k').2.2]
  · rw [if_neg h]
    rw [List.countP_eq_zero]
    intro k' _
    simp [Function.comp, (padCell_fields s "A1C" d' k').2.1, h]

/-- The dates column of the padded table: 13 copies of each date. -/
theorem pad_map_dates (s : List SummaryRecord) :
    (pad s).map (fun r => r.report_date) =
      (allDates s).flatMap (fun d => List.replicate 13 d) := by
  rw [pad_eq_flatMap, List.map_flatMap]
  apply List.flatMap_congr  -- hmm may not exist; fall back below
  intro d _
  rw [List.map_map]
  have : (fun r : SummaryRecord => r.report_date) ∘ (fun k => padCell s "A1C" d k) =
      fun _ => d := by
    funext k
    exact (padCell_fields s "A1C" d k).2.1
  rw [this, List.map_const']
  rfl

/-- A date occurs in the padded table iff it is one of the product dates. -/
theorem mem_pad_dates (s : List SummaryRecord) (d : Nat) :
    d ∈ (pad s).map (fun r => r.report_date) ↔ d ∈ allDates s := by
  rw [pad_map_dates]
  constructor
  · intro h
    obtain ⟨d', hd', hmem⟩ := List.mem_flatMap.mp h
    rw [List.eq_of_mem_replicate hmem]
    exact hd'
  · intro h
    exact List.mem_flatMap.mpr ⟨d, h, List.mem_replicate.mpr ⟨by decide, rfl⟩⟩

/-- Summing a one-hot map over a duplicate-free list. -/
theorem sum_map_ite_single {l : List Nat} {d : Nat} (hnd : l.Nodup) (hd : d ∈ l) (c : Nat) :
    (l.map (fun d' => if d' = d then c else 0)).sum = c := by
  induction l with
  | nil => cases hd
  | cons x xs ih =>
    rw [List.map_cons, List.sum_cons]
    rcases List.mem_cons.mp hd with rfl | hmem
    · rw [if_pos rfl]
      have hz : (xs.map (fun d' => if d' = d then c else 0)).sum = 0 := by
        apply List.sum_eq_zero
        intro y hy
        obtain ⟨d', hd', rfl⟩ := List.mem_map.mp hy
        rw [if_neg]
        exact fun h => (List.nodup_cons.mp hnd).1 (h ▸ hd')
      rw [hz, Nat.add_zero]
    · have hne : x ≠ d := fun h => (List.nodup_cons.mp hnd).1 (h ▸ hmem)
      rw [if_neg hne, ih (List.nodup_cons.mp hnd).2 hmem, Nat.zero_add]

/-- The padded table holds exactly 13 rows per product date. -/
theorem pad_filter_date (s : List SummaryRecord) (d : Nat) (hd : d ∈ allDates s) :
    ((pad s).filter (fun r => r.report_date = d)).length = 13 := by
  rw [pad_eq_flatMap, List.filter_flatMap, List.length_flatMap]
  have hmap : (List.map (List.length ∘ fun d' =>
      List.filter (fun r => r.report_date = d)
        (PRIMARY_KPI_ORDER.map (fun k => padCell s "A1C" d' k))) (allDates s)) =
      (allDates s).map (fun d' => if d' = d then 13 else 0) := by
    apply List.map_congr_left
    intro d' _
    exact filter_block_date s d' d
  rw [hmap, sum_map_ite_single (allDates_nodup s) hd]

/-- The padded table holds exactly one row per product date and canonical
KPI. -/
theorem pad_filter_date_kpi (s : List SummaryRecord) (d : Nat) (k : String)
    (hd : d ∈ allDates s) (hk : k ∈ PRIMARY_KPI_ORDER) :
    ((pad s).filter (fun r => r.report_date = d && r.primary_kpi = k)).length = 1 := by
  rw [pad_eq_flatMap, List.filter_flatMap, List.length_flatMap]
  have hmap : (List.map (List.length ∘ fun d' =>
      List.filter (fun r => r.report_date = d && r.primary_kpi = k)
        (PRIMARY_KPI_ORDER.map (fun k' => padCell s "A1C" d' k'))) (allDates s)) =
      (allDates s).map (fun d' => if d' = d then 1 else 0) := by
    apply List.map_congr_left
    intro d' _
    exact filter_block_date_kpi s d' d k hk
  rw [hmap, sum_map_ite_single (allDates_nodup s) hd]

/-- Total size of the padded table. -/
theorem pad_length (s : List SummaryRecord) :
    (pad s).length = 13 * (allDates s).length := by
  rw [pad_eq_flatMap, List.length_flatMap]
  have hmap : (List.map (List.length ∘ fun d =>
      PRIMARY_KPI_ORDER.map (fun k => padCell s "A1C" d k)) (allDates s)) =
      (allDates s).map (fun _ => 13) := by
    apply List.map_congr_left
    intro d _
    simp [Function.comp, List.length_map]
    rfl
  rw [hmap, List.map_const', List.sum_replicate]
  simp [Nat.mul_comm]

/-- The distinct dates of the padded table are the product dates. -/
theorem pad_dedup_dates (s : List SummaryRecord) :
    ((pad s).map (fun r => r.report_date)).dedup.Perm (allDates s) := by
  apply (List.perm_ext_iff_of_nodup (List.nodup_dedup _) (allDates_nodup s)).mpr
  intro a
  rw [List.mem_dedup]
  exact mem_pad_dates s a

/-- Shape of a successful run. -/
theorem build_ok_eq {docs : List Doc} {detail : List DetailRecord}
    {summary : List SummaryRecord}
    (h : build_detail_and_summary docs = .ok (detail, summary)) :
    detail = docs.flatMap parse_single_html ∧
    summary = pad (summaryPrePad (mapRows (docs.flatMap parse_single_html))) := by
  unfold build_detail_and_summary at h
  by_cases h1 : docs.isEmpty
  · rw [if_pos h1] at h; simp at h
  · rw [if_neg h1] at h
    by_cases h2 : (docs.flatMap parse_single_html).isEmpty
    · rw [if_pos h2] at h; simp at h
    · rw [if_neg h2] at h
      by_cases h3 : (mapRows (docs.flatMap parse_single_html)).isEmpty
      · rw [if_pos h3] at h; simp at h
      · rw [if_neg h3] at h
        simp only [Except.ok.injEq, Prod.mk.injEq] at h
        exact ⟨h.1.symm, h.2.symm⟩

/-- C1: on every successful run the summary table holds, for every date
present in it, exactly one row per canonical KPI — 13 rows per date, no
duplicates and no omissions — and hence exactly `13 × |dates|` rows in
total. -/
theorem build_summary_complete :
    ∀ (docs : List Doc) (detail : List DetailRecord) (summary : List SummaryRecord),
      build_detail_and_summary docs = .ok (detail, summary) →
      (∀ d ∈ summary.map (fun r => r.report_date),
        (summary.filter (fun r => r.report_date = d)).length = 13 ∧
        ∀ k ∈ PRIMARY_KPI_ORDER,
          (summary.filter (fun r => r.report_date = d && r.primary_kpi = k)).length = 1) ∧
      summary.length = 13 * ((summary.map (fun r => r.report_date)).dedup).length := by
  intro docs detail summary h
  obtain ⟨-, hs⟩ := build_ok_eq h
  subst hs
  constructor
  · intro d hd
    have hd' : d ∈ allDates (summaryPrePad (mapRows (docs.flatMap parse_single_html))) :=
      (mem_pad_dates _ d).mp hd
    exact ⟨pad_filter_date _ d hd', fun k hk => pad_filter_date_kpi _ d k hd' hk⟩
  · rw [pad_length, (pad_dedup_dates _).length_eq]

/-- C1 witness: the counting law applied at a concrete successful run. -/
theorem build_summary_complete_witness :
    (pad (summaryPrePad (mapRows ([goodDoc].flatMap parse_single_html)))).length =
      13 * (((pad (summaryPrePad (mapRows ([goodDoc].flatMap parse_single_html)))).map
        (fun r => r.report_date)).dedup).length :=
  (build_summary_complete [goodDoc] ([goodDoc].flatMap parse_single_html)
    (pad (summaryPrePad (mapRows ([goodDoc].flatMap parse_single_html)))) rfl).2

/-- Every record of pass (A) carries the date argument. -/
theorem parseHeadings_date (dt : Option Nat) (fname : String) (hs : List Heading) :
    ∀ r ∈ parseHeadings dt fname hs, r.report_date = dt := by
  intro r hr
  simp only [parseHeadings, List.mem_flatMap] at hr
  obtain ⟨h, _, hr2⟩ := hr
  split at hr2
  · cases hr2
  · split at hr2
    · cases hr2
    · split at hr2
      · cases hr2
      · obtain rfl := List.mem_singleton.mp hr2
        rfl

/-- Every record of pass (B) carries the date argument. -/
theorem parseTables_date (dt : Option Nat) (fname : String)
    (tables : List (String × List Row)) :
    ∀ r ∈ parseTables dt fname tables, r.report_date = dt := by
  intro r hr
  simp only [parseTables, List.mem_flatMap] at hr
  obtain ⟨tbl, _, tr, _, hr2⟩ := hr
  split at hr2
  · cases hr2
  · split at hr2
    · cases hr2
    · obtain rfl := List.mem_singleton.mp hr2
      rfl

/-- Every record of pass (C) carries the date argument. -/
theorem parseTopUp_date (dt : Option Nat) (fname : String) (hits : List TextHit)
    (present : List String) :
    ∀ r ∈ parseTopUp dt fname hits present, r.report_date = dt := by
  intro r hr
  simp only [parseTopUp, List.mem_filterMap] at hr
  obtain ⟨prim, _, hr2⟩ := hr
  split at hr2
  · cases hr2
  · split at hr2
    · cases hr2
    · simp only [Option.map_eq_some'] at hr2
      obtain ⟨d, _, rfl⟩ := hr2
      rfl

/-- Every record `parse_single_html` emits carries the date parsed from the
filename. -/
theorem parse_single_html_date (doc : Doc) :
    ∀ r ∈ parse_single_html doc, r.report_date = extract_date_from_filename doc.name := by
  intro r hr
  unfold parse_single_html at hr
  rw [List.append_assoc, List.mem_append, List.mem_append] at hr
  rcases hr with h | h | h
  · exact parseHeadings_date _ _ _ r h
  · exact parseTables_date _ _ _ r h
  · exact parseTopUp_date _ _ _ _ r h

/-- Null-dated records are invisible to the summary grouping (pandas
`groupby` drops null keys). -/
theorem groupKeys_drop_none (rs : List Mapped) :
    groupKeys rs = groupKeys (rs.filter (fun r => r.report_date.isSome)) := by
  unfold groupKeys
  congr 1
  induction rs with
  | nil => rfl
  | cons r rest ih =>
    cases hd : r.report_date with
    | none => simp [List.filter_cons, List.filterMap_cons, hd, ih]
    | some d => simp [List.filter_cons, List.filterMap_cons, hd, ih]

/-- C6, counterexample: `badDoc` is named "report.html" (no 8-digit date
token), yet its parse emits one record, and a run over it together with a
well-formed file succeeds with that record present — null-dated — in the
detail output: the file is not rejected and does contribute records. -/
theorem dateless_file_contributes_cex :
    extract_date_from_filename "report.html" = none ∧
    (parse_single_html badDoc).length = 1 ∧
    ((build_detail_and_summary [goodDoc, badDoc]).toOption.map (fun p =>
      p.1.countP (fun r => r.source_file = "report.html" && r.report_date = none))) =
      some 1 := by
  decide

/-- C6, amended: a file whose name holds no 8-digit date token is NOT
rejected — `parse_single_html` still runs on it, every record it emits
carries `report_date = none`, those records are included in the detail
output of a successful run (processing of other files continues), and they
are only dropped later, at the summary grouping stage. -/
theorem dateless_files_not_rejected :
    (∀ doc : Doc, ∀ r ∈ parse_single_html doc,
      r.report_date = extract_date_from_filename doc.name) ∧
    (∀ (docs : List Doc) (detail : List DetailRecord) (summary : List SummaryRecord),
      build_detail_and_summary docs = .ok (detail, summary) →
      ∀ doc ∈ docs, ∀ r ∈ parse_single_html doc, r ∈ detail) ∧
    (∀ rs : List Mapped,
      groupKeys rs = groupKeys (rs.filter (fun r => r.report_date.isSome))) := by
  refine ⟨parse_single_html_date, ?_, groupKeys_drop_none⟩
  intro docs detail summary h doc hdoc r hr
  obtain ⟨hd, -⟩ := build_ok_eq h
  rw [hd]
  exact List.mem_flatMap.mpr ⟨doc, hdoc, hr⟩

/-- C6 witness: the amended behaviour at the concrete dateless file. -/
theorem dateless_files_not_rejected_witness :
    (⟨"A1C", none, "", "Some broken widget", "RED", "🔴", "report.html"⟩ :
        DetailRecord).report_date = extract_date_from_filename badDoc.name :=
  dateless_files_not_rejected.1 badDoc
    ⟨"A1C", none, "", "Some broken widget", "RED", "🔴", "report.html"⟩ (by decide)

end Ewa
